import Mathlib

/-!
Shallow embedding of the reui / thunderclap reactive-widget core: the
`Checkbox` widget and its event pipeline (`src/ui/checkbox.rs`) and the
`VStackWidget` layout container (`thunderclap/src/ui/vstack.rs`).

Scalar coordinates (`f32` in the source) are modelled as exact rationals;
the arithmetic performed by the layout pass is addition, subtraction and
halving, so the rational model mirrors the algorithm exactly.

Infrastructure that lives outside the excerpted sources (the event-queue
substrate, `Observed`, `WidgetLayoutEvents`, the window-event enum, the
painter) is modelled from the specification, as marked on each definition.
-/

namespace Reui

/-- Two-dimensional point (euclid `Point2D` in the source), with rational
coordinates standing in for `f32`. -/
structure Point where
  x : ℚ
  y : ℚ
deriving DecidableEq, Repr

/-- Two-dimensional size (euclid `Size2D`). -/
structure Size where
  width : ℚ
  height : ℚ
deriving DecidableEq, Repr

/-- Axis-aligned rectangle: an origin point plus a size (euclid `Rect`). -/
structure Rect where
  origin : Point
  size : Size
deriving DecidableEq, Repr

/-- Rectangle containment as implemented by euclid's `Rect::contains`:
closed on the origin edges, open on the far edges. -/
def Rect.contains (r : Rect) (p : Point) : Bool :=
  decide (r.origin.x ≤ p.x) && decide (p.x < r.origin.x + r.size.width) &&
    decide (r.origin.y ≤ p.y) && decide (p.y < r.origin.y + r.size.height)

/-- Modelled from the spec: `base::MouseButton` (not in the excerpt), the
"button identity" carried by pointer events (§6). Only `left` is inspected
by the checkbox handlers. -/
inductive MouseButton where
  | left
  | middle
  | right
deriving DecidableEq, Repr

/-- Modelled from the spec: `ui::ToggledEvent` (not in the excerpt).
`Start` is the "toggled on" phase, `Stop` the "toggled off" phase, matching
the `Press(Start)` / `Press(Stop)` phrasing of §8. -/
inductive ToggledEvent (α : Type) where
  | Start (value : α)
  | Stop (value : α)
deriving DecidableEq, Repr

/-- Modelled from the spec: `ToggledEvent::new(is_start, value)` selects the
`Start` phase when the flag is true and the `Stop` phase otherwise. -/
def ToggledEvent.new (isStart : Bool) (value : α) : ToggledEvent α :=
  if isStart then ToggledEvent.Start value else ToggledEvent.Stop value

/-- Events emitted by a checkbox (`CheckboxEvent` in `checkbox.rs`). -/
inductive CheckboxEvent where
  | Press (e : ToggledEvent Point)
  | Check (e : ToggledEvent Point)
  | MouseHover (e : ToggledEvent Point)
  | Focus (e : ToggledEvent Unit)
deriving DecidableEq, Repr

/-- Topic key derived from a `CheckboxEvent` variant
(`impl pipe::Event for CheckboxEvent` in `checkbox.rs`). -/
def CheckboxEvent.get_key : CheckboxEvent → String
  | CheckboxEvent.Press (ToggledEvent.Start _) => "press"
  | CheckboxEvent.Press (ToggledEvent.Stop _) => "release"
  | CheckboxEvent.Check (ToggledEvent.Start _) => "check"
  | CheckboxEvent.Check (ToggledEvent.Stop _) => "uncheck"
  | CheckboxEvent.MouseHover (ToggledEvent.Start _) => "begin_hover"
  | CheckboxEvent.MouseHover (ToggledEvent.Stop _) => "end_hover"
  | CheckboxEvent.Focus (ToggledEvent.Start _) => "focus"
  | CheckboxEvent.Focus (ToggledEvent.Stop _) => "blur"

/-- Modelled from the spec: `base::WindowEvent` (not in the excerpt), the
discriminated input-event enum of §6 restricted to the variants the checkbox
pipeline registers handlers for (`mouse_press`, `mouse_release`,
`mouse_move`, `clear_focus`). -/
inductive WindowEvent where
  | MousePress (pos : Point) (button : MouseButton)
  | MouseRelease (pos : Point) (button : MouseButton)
  | MouseMove (pos : Point)
  | ClearFocus
deriving DecidableEq, Repr

/-- Interaction bitflags (`state::InteractionState`), restricted to the
flags the checkbox manipulates: `PRESSED`, `HOVERED`, `FOCUSED`. -/
structure InteractionState where
  pressed : Bool
  hovered : Bool
  focused : Bool
deriving DecidableEq, Repr

/-- Modelled from the spec: `base::Observed` / ObservableCell (§3, §4.1).
Holds the value plus the length of its change-broadcast queue; `set`
appends exactly one change event. -/
structure Observed (α : Type) where
  value : α
  changes : Nat
deriving DecidableEq, Repr

/-- Modelled from the spec: `Observed::set` replaces the value and emits
exactly one change event before returning (§4.1). -/
def Observed.set (o : Observed α) (v : α) : Observed α :=
  { value := v, changes := o.changes + 1 }

/-- Modelled from the spec: `Observed::get` reads the value, no side effect. -/
def Observed.get (o : Observed α) : α :=
  o.value

/-- Drop notification event (`base::DropEvent`). -/
structure DropEvent where
deriving DecidableEq, Repr

/-- The checkbox widget state (`Checkbox` in `checkbox.rs`).
`command_group` models the repaint flag of the display command group
(`CommandGroup::repaint` sets it); `layout` models `base::WidgetLayoutEvents`
as the identifier of the current parent binding, if any; `drop_event` is the
widget-owned drop queue. Render-only fields of the source struct (`painter`,
`visibility`, the phantom markers) are external collaborators per spec §6
and carry no pipeline state. -/
structure Checkbox where
  event_queue : List CheckboxEvent
  checked : Observed Bool
  disabled : Observed Bool
  rect : Rect
  command_group : Bool
  layout : Option Nat
  interaction : InteractionState
  drop_event : List DropEvent
deriving DecidableEq, Repr

/-- Widget bounds (`Checkbox::bounds`). Modelled from the spec: the source
returns `painter.paint_hint(self.rect)` where the painter is an external
collaborator (§6); the paint hint is modelled as the widget rectangle
itself, per the §1 non-goal "hit-testing geometry math beyond rectangle
containment". -/
def Checkbox.bounds (c : Checkbox) : Rect :=
  c.rect

/-- Pipeline handler registered under topic `mouse_press` in
`Checkbox::new`: if the widget is not disabled, the button is the left one
and the position lies inside the bounds, set `PRESSED`, emit
`Press(Start(pos))` on the outbound queue and request a repaint. -/
def mousePressHandler (c : Checkbox) (pos : Point) (button : MouseButton) : Checkbox :=
  if c.disabled.get = false ∧ button = MouseButton.left ∧ c.bounds.contains pos = true then
    { c with
      interaction := { c.interaction with pressed := true },
      event_queue := c.event_queue ++ [CheckboxEvent.Press (ToggledEvent.new true pos)],
      command_group := true }
  else c

/-- Pipeline handler registered under topic `mouse_release` in
`Checkbox::new`: if not disabled, left button and `PRESSED` is set, clear
`PRESSED`, set `FOCUSED`, emit `Press(Stop(pos))`, flip the `checked`
observable, then emit a second `Press` event built from the new checked
value (the source reuses the `Press` constructor here, not `Check`), and
request a repaint. -/
def mouseReleaseHandler (c : Checkbox) (pos : Point) (button : MouseButton) : Checkbox :=
  if c.disabled.get = false ∧ button = MouseButton.left ∧ c.interaction.pressed = true then
    let c1 := { c with
      interaction := { c.interaction with pressed := false, focused := true },
      event_queue := c.event_queue ++ [CheckboxEvent.Press (ToggledEvent.new false pos)] }
    let c2 := { c1 with checked := c1.checked.set (!c1.checked.get) }
    { c2 with
      event_queue := c2.event_queue ++ [CheckboxEvent.Press (ToggledEvent.new c2.checked.get pos)],
      command_group := true }
  else c

/-- Pipeline handler registered under topic `mouse_move` in `Checkbox::new`:
enter/leave hover tracking with `MouseHover` emissions. -/
def mouseMoveHandler (c : Checkbox) (pos : Point) : Checkbox :=
  if c.bounds.contains pos = true then
    if c.interaction.hovered = false then
      { c with
        interaction := { c.interaction with hovered := true },
        event_queue := c.event_queue ++ [CheckboxEvent.MouseHover (ToggledEvent.new true pos)],
        command_group := true }
    else c
  else if c.interaction.hovered = true then
    { c with
      interaction := { c.interaction with hovered := false },
      event_queue := c.event_queue ++ [CheckboxEvent.MouseHover (ToggledEvent.new false pos)],
      command_group := true }
  else c

/-- Pipeline handler registered under topic `clear_focus` in
`Checkbox::new`: removes the `FOCUSED` flag. -/
def clearFocusHandler (c : Checkbox) : Checkbox :=
  { c with interaction := { c.interaction with focused := false } }

/-- Keyed dispatch of one window event to the handler registered under the
matching topic (`pipeline!` keyed binding on `u_aux.window_queue()`). -/
def processWindowEvent (c : Checkbox) : WindowEvent → Checkbox
  | WindowEvent.MousePress pos button => mousePressHandler c pos button
  | WindowEvent.MouseRelease pos button => mouseReleaseHandler c pos button
  | WindowEvent.MouseMove pos => mouseMoveHandler c pos
  | WindowEvent.ClearFocus => clearFocusHandler c

/-- One pipeline pass over the window-event source: the keyed binding drains
its pending events oldest-first and dispatches each by topic (§4.3). The
two change bindings of the pipeline (on `checked.on_change` and
`disabled.on_change`) only request repaints and touch no other state. -/
def runHandlers (c : Checkbox) (events : List WindowEvent) : Checkbox :=
  events.foldl processWindowEvent c

/-- Whole-widget update (`Widget::update for Checkbox`): run the pipeline,
emit a `Focus` event if the focus flag changed across the pass, then adopt
a rectangle assigned by the parent, if one is pending in the layout inbox. -/
def Checkbox.update (c : Checkbox) (events : List WindowEvent)
    (assignedRect : Option Rect) : Checkbox :=
  let was := c.interaction.focused
  let c1 := runHandlers c events
  let c2 :=
    if was ≠ c1.interaction.focused then
      { c1 with
        command_group := true,
        event_queue := c1.event_queue ++ [CheckboxEvent.Focus (ToggledEvent.new (!was) ())] }
    else c1
  match assignedRect with
  | some r => { c2 with rect := r, command_group := true }
  | none => c2

/-- Resizing (`Resizable::set_size for Checkbox`): store the new size,
request a repaint, and notify the layout binding with the updated
rectangle. The returned option is the rectangle emitted on the child's end
of the bidirectional layout queue (`WidgetLayoutEvents::notify`, modelled
from spec §4.4: the child "reports this upward by emitting its new
rectangle on its end of the bidirectional queue"), `none` when unbound. -/
def Checkbox.set_size (c : Checkbox) (s : Size) : Checkbox × Option Rect :=
  let c1 := { c with rect := { c.rect with size := s }, command_group := true }
  (c1, if c1.layout.isSome then some c1.rect else none)

/-- Teardown (`Drop for Checkbox`): emit one `DropEvent` on the widget's
drop queue before the widget goes away. -/
def Checkbox.dropWidget (c : Checkbox) : Checkbox :=
  { c with drop_event := c.drop_event ++ [DropEvent.mk] }

/-- Modelled from the spec: a listener's `drain` yields every event after
its cursor, advancing the cursor (§4.2); here specialised to the events a
drop-queue listener positioned at `cursor` would drain. -/
def drainFrom (q : List DropEvent) (cursor : Nat) : List DropEvent :=
  q.drop cursor

/-- Horizontal alignment of a child inside a container (`ui::Align`, the
four variants matched exhaustively by the `VStack` layout pass). -/
inductive Align where
  | Begin
  | Middle
  | End
  | Stretch
deriving DecidableEq, Repr

/-- Layout parameters of one `VStack` child (`VStackItem` in `vstack.rs`). -/
structure VStackItem where
  top_margin : ℚ
  bottom_margin : ℚ
  alignment : Align
deriving DecidableEq, Repr

/-- Per-child bookkeeping held by the container (`ChildData` in
`vstack.rs`). `inbound` models the container-side slot of the
single-element bidirectional queue (`BidirSingleEventQueue`), holding the
newest rectangle the child has reported upward; `dropPending` models
`drop_listener.peek().is_empty()` being false, i.e. the child has emitted
its drop notification. -/
structure ChildData where
  data : VStackItem
  inbound : Option Rect
  dropPending : Bool
  rect : Rect
  original_rect : Rect
  id : Nat
deriving DecidableEq, Repr

/-- Style values of the stack itself (`VStack` in `vstack.rs`), used as the
default `VStackItem` when `push` receives `None`. -/
structure VStack where
  top_margin : ℚ
  bottom_margin : ℚ
  alignment : Align
deriving DecidableEq, Repr

/-- The stack container widget (`VStackWidget`, fields from the `widget!`
expansion plus the extra block in `vstack.rs`). `rects` is the
`IndexMap<u64, ChildData>` rendered as its entries in insertion order, with
each entry's key equal to its `id` field; `layoutInbox` models the
container's own `WidgetLayoutEvents` inbox (`self.layout.receive()`),
holding the newest rectangle assigned by the container's own parent. -/
structure VStackWidget where
  rect : Rect
  data : VStack
  rects : List ChildData
  next_rect_id : Nat
  dirty : Bool
  layoutInbox : Option Rect
deriving DecidableEq, Repr

/-- View of a managed child as the container sees it through the
`LayableWidget` capability interface (§9): its absolute rectangle and its
current layout binding (`layout_id`). -/
structure ChildWidget where
  rect : Rect
  layoutId : Option Nat
deriving DecidableEq, Repr

/-- Identifiers of the container's child records, in storage order. -/
def childIds (l : List ChildData) : List Nat :=
  l.map (fun c => c.id)

/-- Lookup in the child map (`self.rects.get(&id)` resolution used by
`remove`): the first record whose key matches. -/
def findRecord (l : List ChildData) (i : Nat) : Option ChildData :=
  l.find? (fun c => c.id = i)

/-- Replace the first record whose key is `i` with `a`, keeping its
position: the in-place half of `IndexMap`'s swap-removal. -/
def replaceFirst : List ChildData → Nat → ChildData → List ChildData
  | [], _, _ => []
  | c :: rest, i, a =>
    if c.id = i then a :: rest else c :: replaceFirst rest i a

/-- Removal from the child map as `IndexMap::remove` performs it (its 1.x
`remove` is `swap_remove`): the record with key `i` is overwritten by the
map's last entry and the last slot is popped; a missing key is a no-op. -/
def swapRemove (l : List ChildData) (i : Nat) : List ChildData :=
  if (childIds l).contains i then
    match l.getLast? with
    | some last => (replaceFirst l i last).dropLast
    | none => l
  else l

/-- Intrinsic content measurement and self-resize
(`VStackWidget::resize_to_fit`): fold over the children accumulating the
height sum (child height plus both margins) and the running maximum width,
then set the container's own size to the result. -/
def resize_to_fit (w : VStackWidget) : VStackWidget :=
  let max_size :=
    w.rects.foldl
      (fun acc c =>
        { width := if c.rect.size.width > acc.width then c.rect.size.width else acc.width,
          height := acc.height + c.rect.size.height + c.data.top_margin + c.data.bottom_margin })
      ({ width := 0, height := 0 } : Size)
  { w with rect := { w.rect with size := max_size } }

/-- Registration of a child (`Layout::push for VStackWidget`): mark dirty,
allocate the next identifier, bind the child to the new bidirectional queue
(`listen_to_layout`), record its current absolute rectangle as both current
and original, insert the record (the queue starts empty and the freshly
created drop listener starts at the drop queue's tail, so nothing is
pending), and resize to fit. `IndexMap::insert` replaces in place when the
key already exists and appends otherwise. -/
def push (w : VStackWidget) (data : Option VStackItem) (child : ChildWidget) :
    VStackWidget × ChildWidget :=
  let w1 := { w with dirty := true }
  let id := w1.next_rect_id
  let w2 := { w1 with next_rect_id := id + 1 }
  let child1 := { child with layoutId := some id }
  let rect := child.rect
  let record : ChildData :=
    { data := data.getD
        { top_margin := w2.data.top_margin,
          bottom_margin := w2.data.bottom_margin,
          alignment := w2.data.alignment },
      inbound := none,
      dropPending := false,
      rect := rect,
      original_rect := rect,
      id := id }
  let w3 :=
    if (childIds w2.rects).contains id then
      { w2 with rects := replaceFirst w2.rects id record }
    else
      { w2 with rects := w2.rects ++ [record] }
  (resize_to_fit w3, child1)

/-- Deregistration of a child (`Layout::remove for VStackWidget`): if the
child carries a layout id that resolves to a record, remove the record,
clear the child's binding (`listen_to_layout(None)`), and, when
`restore_original` is set, reset the child's rectangle to the one recorded
at `push` time. -/
def remove (w : VStackWidget) (child : ChildWidget) (restore_original : Bool) :
    VStackWidget × ChildWidget :=
  match child.layoutId with
  | none => (w, child)
  | some id =>
    match findRecord w.rects id with
    | none => (w, child)
    | some data =>
      let w1 := { w with rects := swapRemove w.rects id }
      let child1 := { child with layoutId := none }
      let child2 :=
        if restore_original then { child1 with rect := data.original_rect } else child1
      (w1, child2)

/-- First block of `VStackWidget::update`: drain the container's own layout
inbox; a pending rectangle from the parent is adopted via `set_ctxt_rect`
and marks the container dirty. -/
def receiveLayout (w : VStackWidget) : VStackWidget :=
  match w.layoutInbox with
  | some r => { w with rect := r, dirty := true, layoutInbox := none }
  | none => w

/-- Per-record step of the scan loop in `VStackWidget::update`: a record
whose drop listener has pending events is marked for removal and dirties
the container (and its inbound queue is not drained — the loop `continue`s);
otherwise a rectangle reported by the child (`retrieve_newest`) dirties the
container and replaces the stored child rectangle. Returns the updated
record, the removal mark and the dirty trigger. -/
def scanChild (c : ChildData) : ChildData × Bool × Bool :=
  if c.dropPending then (c, true, true)
  else
    match c.inbound with
    | some r => ({ c with rect := r, inbound := none }, false, true)
    | none => (c, false, false)

/-- Second block of `VStackWidget::update`: scan every record for drop
notifications and child geometry reports, then purge the marked records
with `IndexMap::remove` in mark order. -/
def detectChanges (w : VStackWidget) : VStackWidget :=
  let scanned := w.rects.map scanChild
  let rects1 := scanned.map (fun s => s.1)
  let removals := (scanned.filter (fun s => s.2.1)).map (fun s => s.1.id)
  let dirty1 := w.dirty || scanned.any (fun s => s.2.2)
  { w with rects := removals.foldl swapRemove rects1, dirty := dirty1 }

/-- Rectangle assigned to one child by the layout walk, given the container
rectangle `absRect` and the running offset `adv` (already including this
child's top margin): `y` becomes `adv`; `x` and the width follow the
alignment match of `VStackWidget::update`, with `Middle` modelled from the
spec's reading of `display::center_horizontally` (child centered in the
container: offset `(W - w) / 2`). -/
def computeRect (absRect : Rect) (adv : ℚ) (c : ChildData) : Rect :=
  { origin :=
      { x :=
          match c.data.alignment with
          | Align.Begin => absRect.origin.x
          | Align.Middle => absRect.origin.x + (absRect.size.width - c.rect.size.width) / 2
          | Align.End => absRect.origin.x + absRect.size.width - c.rect.size.width
          | Align.Stretch => absRect.origin.x,
        y := adv },
    size :=
      { width :=
          match c.data.alignment with
          | Align.Stretch => absRect.size.width
          | _ => c.rect.size.width,
        height := c.rect.size.height } }

/-- Layout walk of `VStackWidget::update`: children in storage order, a
running vertical offset threaded through, each child's computed rectangle
emitted into its bidirectional queue (`evq.emit_owned`) and stored back as
its current rectangle. Returns the updated records and the emissions as
(child id, rectangle) pairs in emission order. -/
def layoutChildren (absRect : Rect) (adv : ℚ) :
    List ChildData → List ChildData × List (Nat × Rect)
  | [] => ([], [])
  | c :: rest =>
    let adv1 := adv + c.data.top_margin
    let newRect := computeRect absRect adv1 c
    let tail :=
      layoutChildren absRect (adv1 + newRect.size.height + c.data.bottom_margin) rest
    ({ c with rect := newRect } :: tail.1, (c.id, newRect) :: tail.2)

/-- Third block of `VStackWidget::update`: when dirty, resize to fit, walk
the children from the container's absolute y origin assigning rectangles,
and clear the dirty flag only after all children are processed. Returns the
container plus this call's emissions. -/
def layoutPass (w : VStackWidget) : VStackWidget × List (Nat × Rect) :=
  if w.dirty then
    let w1 := resize_to_fit w
    let walked := layoutChildren w1.rect w1.rect.origin.y w1.rects
    ({ w1 with rects := walked.1, dirty := false }, walked.2)
  else (w, [])

/-- Whole-container update (`Widget::update for VStackWidget`): receive
from the parent, detect child changes and purge dropped children, then run
the dirty layout pass. The second component is the list of rectangles
emitted into child queues during this call. -/
def update (w : VStackWidget) : VStackWidget × List (Nat × Rect) :=
  layoutPass (detectChanges (receiveLayout w))

/-- Iterated container updates, discarding emissions. -/
def updateN : Nat → VStackWidget → VStackWidget
  | 0, w => w
  | n + 1, w => updateN n (update w).1

/-- External delivery of a child's upward geometry report: the rectangle the
child emitted via `notify` lands in the single-element container-side slot
of that child's bidirectional queue, overwriting any older report. -/
def deliver (w : VStackWidget) (i : Nat) (r : Rect) : VStackWidget :=
  { w with
    rects := w.rects.map (fun c => if c.id = i then { c with inbound := some r } else c) }

/-- Sum of the vertical extents (top margin + height + bottom margin) of
the first `i` children: the offset accumulated before child `i`'s own top
margin is applied. -/
def offsetTo (l : List ChildData) (i : Nat) : ℚ :=
  ((l.take i).map (fun c => c.data.top_margin + c.rect.size.height + c.data.bottom_margin)).sum

/-- Total content height of a child list: every child's height plus both
its margins. -/
def totalHeight (l : List ChildData) : ℚ :=
  (l.map (fun c => c.data.top_margin + c.rect.size.height + c.data.bottom_margin)).sum

/-- Maximum child width of a child list (zero when empty). -/
def maxChildWidth (l : List ChildData) : ℚ :=
  (l.map (fun c => c.rect.size.width)).foldl max 0

/-! ### Concrete fixtures used by the witness theorems -/

/-- An enabled, unchecked checkbox whose rectangle spans (10,10)-(30,30). -/
def cbx0 : Checkbox :=
  { event_queue := [],
    checked := { value := false, changes := 0 },
    disabled := { value := false, changes := 0 },
    rect := { origin := { x := 10, y := 10 }, size := { width := 20, height := 20 } },
    command_group := false,
    layout := none,
    interaction := { pressed := false, hovered := false, focused := false },
    drop_event := [] }

/-- A disabled checkbox. -/
def cbxDisabled : Checkbox :=
  { cbx0 with disabled := { value := true, changes := 0 } }

/-- A checkbox bound to a parent layout under identifier 7. -/
def cbxBound : Checkbox :=
  { cbx0 with layout := some 7 }

/-- A sample child record. -/
def sampleChild (i : Nat) (tm bm wdt ht : ℚ) (al : Align) : ChildData :=
  { data := { top_margin := tm, bottom_margin := bm, alignment := al },
    inbound := none,
    dropPending := false,
    rect := { origin := { x := 0, y := 0 }, size := { width := wdt, height := ht } },
    original_rect := { origin := { x := 0, y := 0 }, size := { width := wdt, height := ht } },
    id := i }

/-- A dirty four-child stack exercising all four alignments. -/
def stack0 : VStackWidget :=
  { rect := { origin := { x := 5, y := 7 }, size := { width := 0, height := 0 } },
    data := { top_margin := 0, bottom_margin := 0, alignment := Align.Begin },
    rects := [sampleChild 0 1 2 30 10 Align.Begin,
              sampleChild 1 3 4 40 20 Align.Middle,
              sampleChild 2 0 0 20 5 Align.End,
              sampleChild 3 0 0 10 5 Align.Stretch],
    next_rect_id := 4,
    dirty := true,
    layoutInbox := none }

/-- A stack holding one clean child and one child whose drop notification
is pending. -/
def stackDrop : VStackWidget :=
  { stack0 with
    rects := [sampleChild 0 1 2 30 10 Align.Begin,
              { sampleChild 1 3 4 40 20 Align.Middle with dropPending := true }],
    next_rect_id := 2 }

/-- An unmanaged child widget fixture. -/
def freeChild : ChildWidget :=
  { rect := { origin := { x := 1, y := 2 }, size := { width := 12, height := 34 } },
    layoutId := none }

/-! ### Checkbox claims -/

/-- C1 (code bug evidence): for the unchecked, enabled checkbox at
(10,10) with bounds spanning (10,10)-(30,30), processing a left press at
(15,15) followed by a left release there makes the pipeline handlers
emit, in order, `Press(Start)`, `Press(Stop)` and then a second
`Press(Start)` — not the `Check(Start)` event the `CheckboxEvent::Check`
documentation promises for a mouse release — while the `checked`
observable is flipped exactly once; no `Check` event is ever emitted. -/
theorem checkbox_click_emits_press_instead_of_check :
    (runHandlers cbx0 [WindowEvent.MousePress ⟨15, 15⟩ MouseButton.left,
        WindowEvent.MouseRelease ⟨15, 15⟩ MouseButton.left]).event_queue =
      [CheckboxEvent.Press (ToggledEvent.Start ⟨15, 15⟩),
       CheckboxEvent.Press (ToggledEvent.Stop ⟨15, 15⟩),
       CheckboxEvent.Press (ToggledEvent.Start ⟨15, 15⟩)] ∧
    (runHandlers cbx0 [WindowEvent.MousePress ⟨15, 15⟩ MouseButton.left,
        WindowEvent.MouseRelease ⟨15, 15⟩ MouseButton.left]).checked.value = true ∧
    (runHandlers cbx0 [WindowEvent.MousePress ⟨15, 15⟩ MouseButton.left,
        WindowEvent.MouseRelease ⟨15, 15⟩ MouseButton.left]).checked.changes = 1 ∧
    ((runHandlers cbx0 [WindowEvent.MousePress ⟨15, 15⟩ MouseButton.left,
        WindowEvent.MouseRelease ⟨15, 15⟩ MouseButton.left]).event_queue.all
      (fun e => match e with
        | CheckboxEvent.Check _ => false
        | _ => true)) = true := by
  norm_num [runHandlers, processWindowEvent, mousePressHandler, mouseReleaseHandler,
    cbx0, Checkbox.bounds, Rect.contains, ToggledEvent.new, Observed.get, Observed.set]

/-- C8: tearing a checkbox down appends exactly one `DropEvent` to its drop
queue, and a listener whose cursor sits at the queue's pre-drop tail (as a
managing container's drop listener does) drains exactly that one event. -/
theorem checkbox_drop_emits_one_event (c : Checkbox) :
    (Checkbox.dropWidget c).drop_event.length = c.drop_event.length + 1 ∧
    drainFrom (Checkbox.dropWidget c).drop_event c.drop_event.length = [DropEvent.mk] := by
  constructor
  · simp [Checkbox.dropWidget]
  · simp [Checkbox.dropWidget, drainFrom]

/-- C9: while the `disabled` observable holds true, the `mouse_press` and
`mouse_release` pipeline handlers leave the whole checkbox state — the
`checked` observable, the interaction flags, the outbound event queue and
the repaint flag — untouched. -/
theorem disabled_checkbox_handlers_are_noops (c : Checkbox) (p : Point) (b : MouseButton)
    (h : c.disabled.value = true) :
    processWindowEvent c (WindowEvent.MousePress p b) = c ∧
    processWindowEvent c (WindowEvent.MouseRelease p b) = c := by
  constructor
  · simp [processWindowEvent, mousePressHandler, Observed.get, h]
  · simp [processWindowEvent, mouseReleaseHandler, Observed.get, h]

/-- Witness for C9 at a concrete disabled checkbox and concrete event. -/
theorem disabled_checkbox_handlers_are_noops_witness :
    cbxDisabled.disabled.value = true ∧
    (processWindowEvent cbxDisabled (WindowEvent.MousePress ⟨0, 0⟩ MouseButton.left) =
        cbxDisabled ∧
      processWindowEvent cbxDisabled (WindowEvent.MouseRelease ⟨0, 0⟩ MouseButton.left) =
        cbxDisabled) :=
  ⟨rfl, disabled_checkbox_handlers_are_noops cbxDisabled ⟨0, 0⟩ MouseButton.left rfl⟩

/-! ### VStack claims -/

/-- Helper: under the `IndexMap` invariant that every stored key is below
`next_rect_id`, the fresh identifier is not an existing key. -/
theorem next_id_not_mem (w : VStackWidget)
    (hinv : ∀ c ∈ w.rects, c.id < w.next_rect_id) :
    w.next_rect_id ∉ childIds w.rects := by
  intro hmem
  obtain ⟨c, hc, hid⟩ := List.mem_map.mp hmem
  exact absurd (hid ▸ hinv c hc) (lt_irrefl _)

/-- C10: `push` hands the child the identifier `next_rect_id`, bumps the
counter by one, and appends a fresh record — the key list grows by exactly
the new identifier at the end, so no existing record is overwritten;
the bounded-key invariant and key distinctness are preserved, which makes
the identifiers assigned across any sequence of `push` calls pairwise
distinct and strictly increasing. -/
theorem push_assigns_fresh_increasing_ids (w : VStackWidget) (d : Option VStackItem)
    (child : ChildWidget) (hinv : ∀ c ∈ w.rects, c.id < w.next_rect_id) :
    (push w d child).2.layoutId = some w.next_rect_id ∧
    (push w d child).1.next_rect_id = w.next_rect_id + 1 ∧
    childIds (push w d child).1.rects = childIds w.rects ++ [w.next_rect_id] ∧
    (∀ c ∈ (push w d child).1.rects, c.id < (push w d child).1.next_rect_id) ∧
    ((childIds w.rects).Nodup → (childIds (push w d child).1.rects).Nodup) := by
  have hnm : w.next_rect_id ∉ childIds w.rects := next_id_not_mem w hinv
  have hcont : (childIds w.rects).contains w.next_rect_id = false := by
    simp [List.contains, hnm]
  have hrects : (push w d child).1.rects = w.rects ++ [
      { data := d.getD
          { top_margin := w.data.top_margin,
            bottom_margin := w.data.bottom_margin,
            alignment := w.data.alignment },
        inbound := none,
        dropPending := false,
        rect := child.rect,
        original_rect := child.rect,
        id := w.next_rect_id }] := by
    simp [push, resize_to_fit, hcont, hnm]
  refine ⟨rfl, by simp [push, resize_to_fit, hcont, hnm], ?_, ?_, ?_⟩
  · simp [hrects, childIds]
  · intro c hc
    rw [hrects] at hc
    have hnext : (push w d child).1.next_rect_id = w.next_rect_id + 1 := by
      simp [push, resize_to_fit, hcont, hnm]
    rcases List.mem_append.mp hc with h | h
    · exact hnext ▸ Nat.lt_succ_of_lt (hinv c h)
    · simp only [List.mem_singleton] at h
      subst h
      simp [hnext]
  · intro hnd
    have : childIds (push w d child).1.rects = childIds w.rects ++ [w.next_rect_id] := by
      simp [hrects, childIds]
    rw [this, List.nodup_append]
    exact ⟨hnd, List.nodup_singleton _, by
      intro a ha hb
      simp only [List.mem_singleton] at hb
      exact hnm (hb ▸ ha)⟩

/-- Witness for C10 on the four-child fixture. -/
theorem push_assigns_fresh_increasing_ids_witness :
    (∀ c ∈ stack0.rects, c.id < stack0.next_rect_id) ∧
    ((push stack0 none freeChild).2.layoutId = some stack0.next_rect_id ∧
      (push stack0 none freeChild).1.next_rect_id = stack0.next_rect_id + 1 ∧
      childIds (push stack0 none freeChild).1.rects =
        childIds stack0.rects ++ [stack0.next_rect_id] ∧
      (∀ c ∈ (push stack0 none freeChild).1.rects,
        c.id < (push stack0 none freeChild).1.next_rect_id) ∧
      ((childIds stack0.rects).Nodup →
        (childIds (push stack0 none freeChild).1.rects).Nodup)) :=
  ⟨by decide, push_assigns_fresh_increasing_ids stack0 none freeChild (by decide)⟩

/-! ### Swap-removal bookkeeping

`IndexMap::remove` (= `swap_remove`) moves the last entry into the removed
slot; as a multiset it removes exactly the first entry matching the key,
which the following lemmas capture by relating `swapRemove` to `eraseP`. -/

/-- `replaceFirst` keeps the list length. -/
theorem replaceFirst_length (l : List ChildData) (i : Nat) (a : ChildData) :
    (replaceFirst l i a).length = l.length := by
  induction l with
  | nil => rfl
  | cons c rest ih => by_cases h : c.id = i <;> simp [replaceFirst, h, ih]

/-- Moving a list's last element to the front is a permutation. -/
theorem getLast_cons_dropLast_perm (l : List ChildData) (h : l ≠ []) :
    List.Perm (l.getLast h :: l.dropLast) l := by
  conv_rhs => rw [← List.dropLast_append_getLast h]
  exact (List.perm_append_singleton _ _).symm

/-- Core of the swap-removal characterisation: replacing the first match
with the last element and popping the last slot is, up to permutation, the
erasure of the first match. -/
theorem replaceFirst_dropLast_perm :
    ∀ (l : List ChildData) (i : Nat) (h : l ≠ []),
      (∃ c ∈ l, c.id = i) →
      List.Perm ((replaceFirst l i (l.getLast h)).dropLast)
        (l.eraseP (fun c => decide (c.id = i))) := by
  intro l
  induction l with
  | nil => intro i h _; exact absurd rfl h
  | cons c rest ih =>
    intro i h hex
    by_cases hc : c.id = i
    · rw [List.eraseP_cons_of_pos (by simp [hc])]
      simp only [replaceFirst, if_pos hc]
      cases rest with
      | nil => simp [List.getLast]
      | cons r rs =>
        have hne : (r :: rs) ≠ [] := by simp
        rw [List.getLast_cons hne, List.dropLast_cons₂]
        exact getLast_cons_dropLast_perm (r :: rs) hne
    · have hex1 : ∃ x ∈ rest, x.id = i := by
        rcases hex with ⟨x, hx, hxi⟩
        rcases List.mem_cons.mp hx with rfl | hx1
        · exact absurd hxi hc
        · exact ⟨x, hx1, hxi⟩
      have hrne : rest ≠ [] := by
        rcases hex1 with ⟨x, hx, _⟩
        exact List.ne_nil_of_mem hx
      rw [List.eraseP_cons_of_neg (by simp [hc])]
      simp only [replaceFirst, if_neg hc]
      rw [List.getLast_cons hrne]
      have hrf : replaceFirst rest i (rest.getLast hrne) ≠ [] := by
        intro hnil
        have := congrArg List.length hnil
        rw [replaceFirst_length] at this
        exact hrne (List.eq_nil_of_length_eq_zero this)
      rw [List.dropLast_cons_of_ne_nil hrf]
      exact List.Perm.cons c (ih i hrne hex1)

/-- The swap-removal of key `i` is a permutation of erasing the first
record with key `i`. -/
theorem swapRemove_perm (l : List ChildData) (i : Nat) :
    List.Perm (swapRemove l i) (l.eraseP (fun c => decide (c.id = i))) := by
  by_cases hex : ∃ c ∈ l, c.id = i
  · have hne : l ≠ [] := by
      rcases hex with ⟨c, hc, _⟩
      exact List.ne_nil_of_mem hc
    have hcont : (childIds l).contains i = true := by
      rcases hex with ⟨c, hc, hci⟩
      simp only [List.contains, childIds]
      exact List.elem_iff.mpr (List.mem_map.mpr ⟨c, hc, hci⟩)
    unfold swapRemove
    rw [hcont, List.getLast?_eq_getLast l hne]
    simpa using replaceFirst_dropLast_perm l i hne hex
  · have hall : ∀ c ∈ l, ¬(decide (c.id = i) = true) := by
      intro c hc
      simp only [decide_eq_true_eq]
      exact fun hci => hex ⟨c, hc, hci⟩
    have hnm : i ∉ childIds l := by
      intro hm
      obtain ⟨c, hc, hci⟩ := List.mem_map.mp hm
      exact hex ⟨c, hc, hci⟩
    rw [List.eraseP_of_forall_not hall]
    simp [swapRemove, List.contains, hnm]

/-- Swap-removal never invents records. -/
theorem swapRemove_subset {x : ChildData} (l : List ChildData) (i : Nat)
    (hx : x ∈ swapRemove l i) : x ∈ l :=
  (List.eraseP_sublist l).subset ((swapRemove_perm l i).mem_iff.mp hx)

/-- Swap-removal preserves key distinctness. -/
theorem swapRemove_nodup (l : List ChildData) (i : Nat)
    (h : (childIds l).Nodup) : (childIds (swapRemove l i)).Nodup := by
  have hperm := (swapRemove_perm l i).map (fun c => c.id)
  have hsub0 : (l.eraseP (fun c => decide (c.id = i))).Sublist l := List.eraseP_sublist l
  have hsub := hsub0.map (fun c => c.id)
  simp only [childIds] at h ⊢
  exact hperm.nodup_iff.mpr (hsub.nodup h)

/-- With distinct keys, erasing the first record with key `i` leaves no
record with key `i`. -/
theorem eraseP_id_ne (i : Nat) :
    ∀ (l : List ChildData), (childIds l).Nodup →
      ∀ x ∈ l.eraseP (fun c => decide (c.id = i)), x.id ≠ i := by
  intro l
  induction l with
  | nil => intro _ x hx; simp at hx
  | cons c rest ih =>
    intro hnd x hx
    have hnd1 : (childIds rest).Nodup := by
      simpa [childIds] using (List.nodup_cons.mp (by simpa [childIds] using hnd)).2
    have hcnm : c.id ∉ childIds rest :=
      (List.nodup_cons.mp (by simpa [childIds] using hnd)).1
    by_cases hc : c.id = i
    · rw [List.eraseP_cons_of_pos (by simp [hc])] at hx
      intro hxi
      exact hcnm (by
        rw [hc, ← hxi] at *
        exact List.mem_map.mpr ⟨x, hx, hxi.symm ▸ rfl⟩)
    · rw [List.eraseP_cons_of_neg (by simp [hc])] at hx
      rcases List.mem_cons.mp hx with rfl | hx1
      · exact hc
      · exact ih hnd1 x hx1

/-- With distinct keys, swap-removal of key `i` leaves no record with that
key. -/
theorem swapRemove_id_ne {x : ChildData} (l : List ChildData) (i : Nat)
    (h : (childIds l).Nodup) (hx : x ∈ swapRemove l i) : x.id ≠ i :=
  eraseP_id_ne i l h x ((swapRemove_perm l i).mem_iff.mp hx)

/-- Records with other keys survive swap-removal. -/
theorem mem_swapRemove_of_ne {x : ChildData} (l : List ChildData) (i : Nat)
    (hx : x ∈ l) (hne : x.id ≠ i) : x ∈ swapRemove l i :=
  (swapRemove_perm l i).mem_iff.mpr
    ((List.mem_eraseP_of_neg (by simp [hne])).mpr hx)

/-- Folding swap-removals never invents records. -/
theorem foldl_swapRemove_subset {x : ChildData} :
    ∀ (rs : List Nat) (l : List ChildData), x ∈ rs.foldl swapRemove l → x ∈ l := by
  intro rs
  induction rs with
  | nil => intro l hx; exact hx
  | cons r rest ih =>
    intro l hx
    exact swapRemove_subset l r (ih (swapRemove l r) hx)

/-- Folding swap-removals preserves key distinctness. -/
theorem foldl_swapRemove_nodup :
    ∀ (rs : List Nat) (l : List ChildData), (childIds l).Nodup →
      (childIds (rs.foldl swapRemove l)).Nodup := by
  intro rs
  induction rs with
  | nil => intro l h; exact h
  | cons r rest ih =>
    intro l h
    exact ih (swapRemove l r) (swapRemove_nodup l r h)

/-- After folding swap-removals over a key list containing `i` (over a map
with distinct keys), no surviving record has key `i`. -/
theorem foldl_swapRemove_id_ne {x : ChildData} :
    ∀ (rs : List Nat) (l : List ChildData), (childIds l).Nodup → ∀ i ∈ rs,
      x ∈ rs.foldl swapRemove l → x.id ≠ i := by
  intro rs
  induction rs with
  | nil => intro l _ i hi; simp at hi
  | cons r rest ih =>
    intro l hnd i hi hx
    rcases List.mem_cons.mp hi with rfl | hi1
    · exact swapRemove_id_ne l i hnd (foldl_swapRemove_subset rest (swapRemove l i) hx)
    · exact ih (swapRemove l r) (swapRemove_nodup l r hnd) i hi1 hx

/-- A record whose key is hit by no removal survives the removal fold. -/
theorem mem_foldl_swapRemove {x : ChildData} :
    ∀ (rs : List Nat) (l : List ChildData), x ∈ l → (∀ r ∈ rs, x.id ≠ r) →
      x ∈ rs.foldl swapRemove l := by
  intro rs
  induction rs with
  | nil => intro l hx _; exact hx
  | cons r rest ih =>
    intro l hx hni
    exact ih (swapRemove l r)
      (mem_swapRemove_of_ne l r hx (hni r (List.mem_cons_self r rest)))
      (fun r1 hr1 => hni r1 (List.mem_cons_of_mem r hr1))

/-! ### Facts about the three blocks of `VStackWidget::update` -/

/-- The scan step keeps the record identifier. -/
theorem scanChild_fst_id (c : ChildData) : (scanChild c).1.id = c.id := by
  cases hd : c.dropPending <;> cases hc : c.inbound <;> simp [scanChild, hd, hc]

/-- The scan step keeps identifier, original rectangle, layout data and the
drop mark of a record. -/
theorem scanChild_fst_fields (c : ChildData) :
    (scanChild c).1.id = c.id ∧ (scanChild c).1.original_rect = c.original_rect ∧
    (scanChild c).1.data = c.data ∧ (scanChild c).1.dropPending = c.dropPending := by
  cases hd : c.dropPending <;> cases hc : c.inbound <;> simp [scanChild, hd, hc]

/-- A record with a pending drop notification is passed through untouched
and marked for removal (the loop `continue`s). -/
theorem scanChild_drop (c : ChildData) (h : c.dropPending = true) :
    scanChild c = (c, true, true) := by
  simp [scanChild, h]

/-- A record without a pending drop comes out of the scan clean: not
marked, no drop pending, and its inbound slot drained. -/
theorem scanChild_clean (c : ChildData) (h : c.dropPending = false) :
    (scanChild c).1.dropPending = false ∧ (scanChild c).1.inbound = none ∧
    (scanChild c).2.1 = false := by
  cases hc : c.inbound <;> simp [scanChild, h, hc]

/-- Scanning keeps the key list unchanged. -/
theorem childIds_scan (l : List ChildData) :
    childIds ((l.map scanChild).map (fun s => s.1)) = childIds l := by
  simp only [childIds, List.map_map]
  exact List.map_congr_left (fun c _ => scanChild_fst_id c)

/-- Every record surviving the change-detection block is the scan image of
a stored record. -/
theorem detect_rects_mem (v : VStackWidget) {x : ChildData}
    (hx : x ∈ (detectChanges v).rects) :
    ∃ c ∈ v.rects, x = (scanChild c).1 := by
  simp only [detectChanges] at hx
  have hx1 := foldl_swapRemove_subset _ _ hx
  obtain ⟨s, hs, rfl⟩ := List.mem_map.mp hx1
  obtain ⟨c, hc, rfl⟩ := List.mem_map.mp hs
  exact ⟨c, hc, rfl⟩

/-- A record with a pending drop puts its key on the removal list. -/
theorem detect_removal_of_drop (v : VStackWidget) {c : ChildData}
    (hc : c ∈ v.rects) (hd : c.dropPending = true) :
    c.id ∈ ((v.rects.map scanChild).filter (fun s => s.2.1)).map (fun s => s.1.id) := by
  refine List.mem_map.mpr ⟨scanChild c, List.mem_filter.mpr ⟨List.mem_map.mpr ⟨c, hc, rfl⟩, ?_⟩, ?_⟩
  · simp [scanChild_drop c hd]
  · simp [scanChild_drop c hd]

/-- With distinct keys, every record surviving change detection is clean:
no drop pending and an empty inbound slot. -/
theorem detect_rects_clean (v : VStackWidget) (hN : (childIds v.rects).Nodup) :
    ∀ x ∈ (detectChanges v).rects, x.dropPending = false ∧ x.inbound = none := by
  intro x hx
  obtain ⟨c, hc, hxc⟩ := detect_rects_mem v hx
  by_cases hd : c.dropPending = true
  · exfalso
    have hnd1 : (childIds ((v.rects.map scanChild).map (fun s => s.1))).Nodup := by
      rw [childIds_scan]; exact hN
    simp only [detectChanges] at hx
    have hne := foldl_swapRemove_id_ne _ _ hnd1 c.id (detect_removal_of_drop v hc hd) hx
    rw [hxc, scanChild_drop c hd] at hne
    exact hne rfl
  · have hd0 : c.dropPending = false := by
      cases h : c.dropPending
      · rfl
      · exact absurd h hd
    obtain ⟨h1, h2, _⟩ := scanChild_clean c hd0
    exact ⟨hxc ▸ h1, hxc ▸ h2⟩

/-- With distinct keys, the key of a record whose drop notification is
pending does not survive change detection. -/
theorem detect_drop_key_removed (v : VStackWidget) (hN : (childIds v.rects).Nodup)
    {c : ChildData} (hc : c ∈ v.rects) (hd : c.dropPending = true) :
    c.id ∉ childIds (detectChanges v).rects := by
  intro hmem
  obtain ⟨x, hx, hxi⟩ := List.mem_map.mp hmem
  have hnd1 : (childIds ((v.rects.map scanChild).map (fun s => s.1))).Nodup := by
    rw [childIds_scan]; exact hN
  simp only [detectChanges] at hx
  exact foldl_swapRemove_id_ne _ _ hnd1 c.id (detect_removal_of_drop v hc hd) hx hxi

/-- Change detection keeps key distinctness. -/
theorem detect_nodup (v : VStackWidget) (hN : (childIds v.rects).Nodup) :
    (childIds (detectChanges v).rects).Nodup := by
  simp only [detectChanges]
  exact foldl_swapRemove_nodup _ _ (by rw [childIds_scan]; exact hN)

/-- Change detection introduces no new keys. -/
theorem detect_ids_subset (v : VStackWidget) {i : Nat}
    (hi : i ∈ childIds (detectChanges v).rects) : i ∈ childIds v.rects := by
  obtain ⟨x, hx, hxi⟩ := List.mem_map.mp hi
  obtain ⟨c, hc, hxc⟩ := detect_rects_mem v hx
  exact List.mem_map.mpr ⟨c, hc, by rw [← hxi, hxc, scanChild_fst_id]⟩

/-- The receive block does not touch the child records. -/
theorem receiveLayout_rects (w : VStackWidget) : (receiveLayout w).rects = w.rects := by
  cases h : w.layoutInbox <;> simp [receiveLayout, h]

/-- The receive block leaves the inbox drained. -/
theorem receiveLayout_inbox (w : VStackWidget) : (receiveLayout w).layoutInbox = none := by
  cases h : w.layoutInbox <;> simp [receiveLayout, h]

/-- Every record coming out of the layout walk is a stored record with only
its rectangle rewritten. -/
theorem layoutChildren_mem_fst (a : Rect) :
    ∀ (l : List ChildData) (adv : ℚ) (x : ChildData),
      x ∈ (layoutChildren a adv l).1 → ∃ c ∈ l, x = { c with rect := x.rect } := by
  intro l
  induction l with
  | nil => intro adv x hx; simp [layoutChildren] at hx
  | cons c rest ih =>
    intro adv x hx
    simp only [layoutChildren] at hx
    rcases List.mem_cons.mp hx with rfl | hx1
    · exact ⟨c, List.mem_cons_self c rest, by simp⟩
    · obtain ⟨c1, hc1, hx1c⟩ := ih _ x hx1
      exact ⟨c1, List.mem_cons_of_mem c hc1, hx1c⟩

/-- Every stored record reappears after the layout walk with identifier,
original rectangle, layout data and drop mark intact. -/
theorem layoutChildren_fst_mem (a : Rect) :
    ∀ (l : List ChildData) (adv : ℚ) (c : ChildData), c ∈ l →
      ∃ x ∈ (layoutChildren a adv l).1,
        x.id = c.id ∧ x.original_rect = c.original_rect ∧
        x.data = c.data ∧ x.dropPending = c.dropPending := by
  intro l
  induction l with
  | nil => intro adv c hc; simp at hc
  | cons c0 rest ih =>
    intro adv c hc
    rcases List.mem_cons.mp hc with rfl | hc1
    · exact ⟨{ c with rect := computeRect a (adv + c.data.top_margin) c },
        by simp [layoutChildren], by simp⟩
    · obtain ⟨x, hx, hfields⟩ := ih (adv + c0.data.top_margin +
        (computeRect a (adv + c0.data.top_margin) c0).size.height + c0.data.bottom_margin) c hc1
      exact ⟨x, by simp only [layoutChildren]; exact List.mem_cons_of_mem _ hx, hfields⟩

/-- The layout walk keeps the key list unchanged. -/
theorem layoutChildren_ids (a : Rect) :
    ∀ (l : List ChildData) (adv : ℚ), childIds (layoutChildren a adv l).1 = childIds l := by
  intro l
  induction l with
  | nil => intro adv; simp [layoutChildren]
  | cons c rest ih => intro adv; simp [layoutChildren, childIds] at ih ⊢; exact ih _

/-- Every emission of the layout walk targets a stored key. -/
theorem layoutChildren_snd_ids (a : Rect) :
    ∀ (l : List ChildData) (adv : ℚ) (e : Nat × Rect),
      e ∈ (layoutChildren a adv l).2 → e.1 ∈ childIds l := by
  intro l
  induction l with
  | nil => intro adv e he; simp [layoutChildren] at he
  | cons c rest ih =>
    intro adv e he
    simp only [layoutChildren] at he
    rcases List.mem_cons.mp he with rfl | he1
    · exact List.mem_map.mpr ⟨c, List.mem_cons_self c rest, rfl⟩
    · exact List.mem_cons_of_mem _ (ih _ e he1)

/-- One emission per child, in order. -/
theorem layoutChildren_snd_length (a : Rect) :
    ∀ (l : List ChildData) (adv : ℚ), (layoutChildren a adv l).2.length = l.length := by
  intro l
  induction l with
  | nil => intro adv; simp [layoutChildren]
  | cons c rest ih => intro adv; simp [layoutChildren, ih _]

/-- An update always ends with the dirty flag cleared. -/
theorem update_dirty_false (w : VStackWidget) : (update w).1.dirty = false := by
  unfold update layoutPass
  by_cases h : (detectChanges (receiveLayout w)).dirty <;> simp [h]

/-- Resizing touches only the container's own rectangle. -/
theorem resize_to_fit_rects (w : VStackWidget) : (resize_to_fit w).rects = w.rects := rfl

/-- Resizing leaves the layout inbox alone. -/
theorem resize_to_fit_inbox (w : VStackWidget) :
    (resize_to_fit w).layoutInbox = w.layoutInbox := rfl

/-- Change detection leaves the layout inbox alone. -/
theorem detect_inbox (v : VStackWidget) : (detectChanges v).layoutInbox = v.layoutInbox := rfl

/-- An update always ends with the container's own layout inbox drained. -/
theorem update_inbox_none (w : VStackWidget) : (update w).1.layoutInbox = none := by
  unfold update layoutPass
  by_cases h : (detectChanges (receiveLayout w)).dirty
  · simp only [h, if_true]
    exact receiveLayout_inbox w
  · simp only [h, if_false]
    exact receiveLayout_inbox w

/-- With distinct keys, every record surviving a whole update is clean. -/
theorem update_rects_clean (w : VStackWidget) (hN : (childIds w.rects).Nodup) :
    ∀ x ∈ (update w).1.rects, x.dropPending = false ∧ x.inbound = none := by
  intro x hx
  have hNv : (childIds (receiveLayout w).rects).Nodup := by
    rw [receiveLayout_rects]; exact hN
  unfold update layoutPass at hx
  by_cases h : (detectChanges (receiveLayout w)).dirty
  · simp only [h, if_true] at hx
    have hx1 : x ∈ (layoutChildren (resize_to_fit (detectChanges (receiveLayout w))).rect
        (resize_to_fit (detectChanges (receiveLayout w))).rect.origin.y
        (detectChanges (receiveLayout w)).rects).1 := hx
    obtain ⟨c, hc, hxc⟩ := layoutChildren_mem_fst _ _ _ x hx1
    obtain ⟨h1, h2⟩ := detect_rects_clean (receiveLayout w) hNv c hc
    constructor
    · rw [hxc]; exact h1
    · rw [hxc]; exact h2
  · simp only [h, if_false] at hx
    exact detect_rects_clean (receiveLayout w) hNv x hx

/-- Updates introduce no new keys. -/
theorem update_ids_subset (w : VStackWidget) {i : Nat}
    (hi : i ∈ childIds (update w).1.rects) : i ∈ childIds w.rects := by
  unfold update layoutPass at hi
  rw [← receiveLayout_rects w]
  by_cases h : (detectChanges (receiveLayout w)).dirty
  · simp only [h, if_true] at hi
    rw [layoutChildren_ids, resize_to_fit_rects] at hi
    exact detect_ids_subset _ hi
  · simp only [h, if_false] at hi
    exact detect_ids_subset _ hi

/-- Updates keep key distinctness. -/
theorem update_nodup (w : VStackWidget) (hN : (childIds w.rects).Nodup) :
    (childIds (update w).1.rects).Nodup := by
  have hNd : (childIds (detectChanges (receiveLayout w)).rects).Nodup :=
    detect_nodup _ (by rw [receiveLayout_rects]; exact hN)
  unfold update layoutPass
  by_cases h : (detectChanges (receiveLayout w)).dirty
  · simp only [h, if_true]
    rw [layoutChildren_ids, resize_to_fit_rects]
    exact hNd
  · simp only [h, if_false]
    exact hNd

/-- Every rectangle emitted by an update targets a key that is still stored
after the update. -/
theorem update_emission_ids (w : VStackWidget) :
    ∀ e ∈ (update w).2, e.1 ∈ childIds (update w).1.rects := by
  intro e he
  unfold update layoutPass at he ⊢
  by_cases h : (detectChanges (receiveLayout w)).dirty
  · simp only [h, if_true] at he ⊢
    have hmem := layoutChildren_snd_ids _ _ _ e he
    rw [layoutChildren_ids]
    exact hmem
  · simp only [h, if_false] at he
    simp at he

/-- A key absent from the map stays absent and is never emitted to. -/
theorem update_not_mem (w : VStackWidget) (i : Nat) (hni : i ∉ childIds w.rects) :
    i ∉ childIds (update w).1.rects ∧ ∀ e ∈ (update w).2, e.1 ≠ i := by
  constructor
  · exact fun hmem => hni (update_ids_subset w hmem)
  · intro e he hei
    exact hni (update_ids_subset w (hei ▸ update_emission_ids w e he))

/-- Unfolding iterated updates from the far end. -/
theorem updateN_succ (n : Nat) (w : VStackWidget) :
    updateN (n + 1) w = (update (updateN n w)).1 := by
  induction n generalizing w with
  | zero => rfl
  | succ k ih =>
    show updateN (k + 1) (update w).1 = _
    rw [ih]
    rfl

/-- C4: with distinct record keys (an `IndexMap` invariant), a second
consecutive `update` — no push, no remove, no child geometry report, no
drop notification and no parent-assigned rectangle in between — emits no
rectangle into any child's bidirectional queue: the first call left the
dirty flag clear and nothing re-triggers it. -/
theorem second_update_emits_nothing (w : VStackWidget)
    (hN : (childIds w.rects).Nodup) :
    (update (update w).1).2 = [] := by
  have h1 : (update w).1.dirty = false := update_dirty_false w
  have h2 : (update w).1.layoutInbox = none := update_inbox_none w
  have h3 := update_rects_clean w hN
  have hrcv : receiveLayout (update w).1 = (update w).1 := by
    simp [receiveLayout, h2]
  have hscan : ∀ c ∈ (update w).1.rects, scanChild c = (c, false, false) := by
    intro c hc
    obtain ⟨hdp, hin⟩ := h3 c hc
    simp [scanChild, hdp, hin]
  have hmap : (update w).1.rects.map scanChild =
      (update w).1.rects.map (fun c => (c, false, false)) :=
    List.map_congr_left hscan
  have hdirty : (detectChanges (update w).1).dirty = false := by
    simp [detectChanges, hmap, h1]
  rw [show update (update w).1 = layoutPass (detectChanges (receiveLayout (update w).1)) from rfl,
    hrcv]
  simp [layoutPass, hdirty]

/-- Witness for C4 on a freshly updated dirty stack. -/
theorem second_update_emits_nothing_witness :
    (childIds stack0.rects).Nodup ∧ (update (update stack0).1).2 = [] :=
  ⟨by decide, second_update_emits_nothing stack0 (by decide)⟩

/-- C5: once a managed child's drop notification is pending, the next
`update` purges that child's record (its key is no longer stored) and emits
no rectangle to it, in that call or in any number of further update calls;
the purge path performs no geometry restore — the only place the container
ever writes a child rectangle back is `remove` with `restore_original`. -/
theorem dropped_child_purged_and_never_assigned (w : VStackWidget) (c : ChildData)
    (hN : (childIds w.rects).Nodup) (hc : c ∈ w.rects) (hd : c.dropPending = true) :
    c.id ∉ childIds (update w).1.rects ∧
    (∀ e ∈ (update w).2, e.1 ≠ c.id) ∧
    ∀ n, c.id ∉ childIds (updateN n (update w).1).rects ∧
      ∀ e ∈ (update (updateN n (update w).1)).2, e.1 ≠ c.id := by
  have hrm : c.id ∉ childIds (update w).1.rects := by
    intro hmem
    have hNv : (childIds (receiveLayout w).rects).Nodup := by
      rw [receiveLayout_rects]; exact hN
    have hcv : c ∈ (receiveLayout w).rects := by
      rw [receiveLayout_rects]; exact hc
    have hdet := detect_drop_key_removed (receiveLayout w) hNv hcv hd
    apply hdet
    unfold update layoutPass at hmem
    by_cases h : (detectChanges (receiveLayout w)).dirty
    · simp only [h, if_true] at hmem
      rw [layoutChildren_ids, resize_to_fit_rects] at hmem
      exact hmem
    · simp only [h, if_false] at hmem
      exact hmem
  refine ⟨hrm, ?_, ?_⟩
  · intro e he hei
    exact hrm (hei ▸ update_emission_ids w e he)
  · intro n
    induction n with
    | zero => exact ⟨hrm, (update_not_mem _ c.id hrm).2⟩
    | succ m ih =>
      have hm1 : c.id ∉ childIds (updateN (m + 1) (update w).1).rects := by
        rw [updateN_succ]
        exact (update_not_mem _ c.id ih.1).1
      exact ⟨hm1, (update_not_mem _ c.id hm1).2⟩

/-- Witness for C5 on the fixture whose second child has a pending drop. -/
theorem dropped_child_purged_and_never_assigned_witness :
    (childIds stackDrop.rects).Nodup ∧
    ({ sampleChild 1 3 4 40 20 Align.Middle with dropPending := true } ∈ stackDrop.rects) ∧
    (({ sampleChild 1 3 4 40 20 Align.Middle with dropPending := true } : ChildData).id ∉
        childIds (update stackDrop).1.rects ∧
      (∀ e ∈ (update stackDrop).2,
        e.1 ≠ ({ sampleChild 1 3 4 40 20 Align.Middle with dropPending := true } : ChildData).id) ∧
      ∀ n,
        ({ sampleChild 1 3 4 40 20 Align.Middle with dropPending := true } : ChildData).id ∉
          childIds (updateN n (update stackDrop).1).rects ∧
        ∀ e ∈ (update (updateN n (update stackDrop).1)).2,
          e.1 ≠ ({ sampleChild 1 3 4 40 20 Align.Middle with dropPending := true } : ChildData).id) :=
  ⟨by decide, by decide,
    dropped_child_purged_and_never_assigned stackDrop
      { sampleChild 1 3 4 40 20 Align.Middle with dropPending := true }
      (by decide) (by decide) rfl⟩

/-! ### Record preservation across updates, and `remove` -/

/-- With distinct keys, `find?` on the key of a stored record returns that
record. -/
theorem find_record_of_mem :
    ∀ (l : List ChildData), (childIds l).Nodup → ∀ {d : ChildData}, d ∈ l →
      findRecord l d.id = some d := by
  intro l
  induction l with
  | nil => intro _ d hd; simp at hd
  | cons c rest ih =>
    intro hN d hd
    have hN' : (childIds rest).Nodup :=
      (List.nodup_cons.mp (by simpa [childIds] using hN)).2
    have hcnm : c.id ∉ childIds rest :=
      (List.nodup_cons.mp (by simpa [childIds] using hN)).1
    by_cases hc : c.id = d.id
    · have hdc : d = c := by
        rcases List.mem_cons.mp hd with rfl | hd1
        · rfl
        · exact absurd (List.mem_map.mpr ⟨d, hd1, hc.symm⟩) hcnm
      simp [findRecord, List.find?_cons, hc, hdc]
    · have hd1 : d ∈ rest := by
        rcases List.mem_cons.mp hd with rfl | hd1
        · exact absurd rfl hc
        · exact hd1
      simpa [findRecord, List.find?_cons, hc] using ih hN' hd1

/-- With distinct keys, the swap-removed key is gone from the map. -/
theorem swapRemove_key_not_mem (l : List ChildData) (i : Nat)
    (hN : (childIds l).Nodup) : i ∉ childIds (swapRemove l i) := by
  intro hm
  obtain ⟨x, hx, hxi⟩ := List.mem_map.mp hm
  exact swapRemove_id_ne l i hN hx hxi

/-- A record with no pending drop survives change detection (image of the
scan step). -/
theorem detect_preserves_record (v : VStackWidget) {d : ChildData}
    (hN : (childIds v.rects).Nodup) (hd : d ∈ v.rects) (hdp : d.dropPending = false) :
    (scanChild d).1 ∈ (detectChanges v).rects := by
  simp only [detectChanges]
  apply mem_foldl_swapRemove
  · exact List.mem_map.mpr ⟨scanChild d, List.mem_map.mpr ⟨d, hd, rfl⟩, rfl⟩
  · intro r hr
    obtain ⟨s, hs, hsr⟩ := List.mem_map.mp hr
    obtain ⟨hsf, hflag⟩ := List.mem_filter.mp hs
    obtain ⟨c, hc, hcs⟩ := List.mem_map.mp hsf
    have hcd : c.dropPending = true := by
      cases h : c.dropPending
      · exfalso
        have hclean := (scanChild_clean c h).2.2
        rw [hcs] at hclean
        rw [hclean] at hflag
        exact Bool.false_ne_true hflag
      · rfl
    have hr_eq : r = c.id := by rw [← hsr, ← hcs, scanChild_fst_id]
    rw [scanChild_fst_id, hr_eq]
    intro heq
    have hdc : d = c := List.inj_on_of_nodup_map (by simpa [childIds] using hN) hd hc heq
    rw [hdc, hcd] at hdp
    exact absurd hdp (by simp)

/-- A record with no pending drop survives a whole update with identifier,
original rectangle and clean drop mark intact. -/
theorem update_preserves_record (v : VStackWidget) {d : ChildData}
    (hN : (childIds v.rects).Nodup) (hd : d ∈ v.rects) (hdp : d.dropPending = false) :
    ∃ d2 ∈ (update v).1.rects, d2.id = d.id ∧ d2.original_rect = d.original_rect ∧
      d2.dropPending = false := by
  have hNv : (childIds (receiveLayout v).rects).Nodup := by
    rw [receiveLayout_rects]; exact hN
  have hdv : d ∈ (receiveLayout v).rects := by
    rw [receiveLayout_rects]; exact hd
  have h1 := detect_preserves_record (receiveLayout v) hNv hdv hdp
  obtain ⟨hfid, hforig, _, hfdp⟩ := scanChild_fst_fields d
  unfold update layoutPass
  by_cases h : (detectChanges (receiveLayout v)).dirty
  · simp only [h, if_true]
    have h1' : (scanChild d).1 ∈ (resize_to_fit (detectChanges (receiveLayout v))).rects := by
      rw [resize_to_fit_rects]; exact h1
    obtain ⟨x, hx, hxid, hxorig, _, hxdp⟩ := layoutChildren_fst_mem _ _ _ _ h1'
    exact ⟨x, hx, by rw [hxid, hfid], by rw [hxorig, hforig],
      by rw [hxdp, hfdp, hdp]⟩
  · simp only [h, if_false]
    exact ⟨(scanChild d).1, h1, hfid, hforig, by rw [hfdp, hdp]⟩

/-- Iterated updates keep key distinctness. -/
theorem updateN_nodup (n : Nat) (v : VStackWidget) (hN : (childIds v.rects).Nodup) :
    (childIds (updateN n v).rects).Nodup := by
  induction n generalizing v with
  | zero => exact hN
  | succ m ih => exact ih (update v).1 (update_nodup v hN)

/-- A record with no pending drop survives any number of updates with
identifier, original rectangle and clean drop mark intact. -/
theorem updateN_preserves_record (n : Nat) (v : VStackWidget) {d : ChildData}
    (hN : (childIds v.rects).Nodup) (hd : d ∈ v.rects) (hdp : d.dropPending = false) :
    ∃ d2 ∈ (updateN n v).rects, d2.id = d.id ∧ d2.original_rect = d.original_rect ∧
      d2.dropPending = false := by
  induction n generalizing v d with
  | zero => exact ⟨d, hd, rfl, rfl, hdp⟩
  | succ m ih =>
    obtain ⟨d2, hd2, hid2, horig2, hdp2⟩ := update_preserves_record v hN hd hdp
    obtain ⟨d3, hd3, hid3, horig3, hdp3⟩ := ih (update v).1 (update_nodup v hN) hd2 hdp2
    exact ⟨d3, hd3, by rw [hid3, hid2], by rw [horig3, horig2], hdp3⟩

/-- The record inserted by `push` stores the child's rectangle at push time
as its original rectangle, under the fresh `next_rect_id` key. -/
theorem push_record_mem (w : VStackWidget) (d : Option VStackItem) (child : ChildWidget)
    (hinv : ∀ c ∈ w.rects, c.id < w.next_rect_id) :
    ∃ rec ∈ (push w d child).1.rects, rec.id = w.next_rect_id ∧
      rec.original_rect = child.rect ∧ rec.dropPending = false := by
  have hnm := next_id_not_mem w hinv
  refine ⟨{ data := d.getD ({ top_margin := w.data.top_margin,
                              bottom_margin := w.data.bottom_margin,
                              alignment := w.data.alignment }),
            inbound := none,
            dropPending := false,
            rect := child.rect,
            original_rect := child.rect,
            id := w.next_rect_id }, ?_, rfl, rfl, rfl⟩
  simp [push, resize_to_fit, hnm]

/-- C6: for a child managed since a `push` (which recorded the child's
rectangle of that moment as `original_rect`), after any number of container
updates — each of which may reassign the stored child rectangle —
`remove(child, restore_original := true)` clears the child's layout
binding, removes the record, and sets the child's rectangle to exactly the
push-time rectangle, whatever rectangle `r2` the child carries by then. -/
theorem remove_restores_push_time_rect (w : VStackWidget) (d : Option VStackItem)
    (child : ChildWidget) (n : Nat) (r2 : Rect)
    (hN : (childIds w.rects).Nodup)
    (hinv : ∀ c ∈ w.rects, c.id < w.next_rect_id) :
    (remove (updateN n (push w d child).1)
        { rect := r2, layoutId := (push w d child).2.layoutId } true).2.rect = child.rect ∧
    (remove (updateN n (push w d child).1)
        { rect := r2, layoutId := (push w d child).2.layoutId } true).2.layoutId = none ∧
    w.next_rect_id ∉ childIds (remove (updateN n (push w d child).1)
        { rect := r2, layoutId := (push w d child).2.layoutId } true).1.rects := by
  obtain ⟨hlid, _, _, _, hnodup⟩ := push_assigns_fresh_increasing_ids w d child hinv
  obtain ⟨rec, hrecmem, hrecid, hrecorig, hrecdp⟩ := push_record_mem w d child hinv
  have hN1 : (childIds (push w d child).1.rects).Nodup := hnodup hN
  obtain ⟨d2, hd2mem, hd2id, hd2orig, _⟩ :=
    updateN_preserves_record n (push w d child).1 hN1 hrecmem hrecdp
  have hNn : (childIds (updateN n (push w d child).1).rects).Nodup :=
    updateN_nodup n (push w d child).1 hN1
  have hfind : findRecord (updateN n (push w d child).1).rects w.next_rect_id = some d2 := by
    have h := find_record_of_mem _ hNn hd2mem
    rw [hd2id, hrecid] at h
    exact h
  have horig : d2.original_rect = child.rect := by rw [hd2orig, hrecorig]
  rw [hlid]
  simp only [remove, hfind]
  refine ⟨by simp [horig], by simp, ?_⟩
  simpa using swapRemove_key_not_mem _ w.next_rect_id hNn

/-- Witness for C6: push onto the four-child fixture, run three updates,
then remove with restore. -/
theorem remove_restores_push_time_rect_witness :
    (childIds stack0.rects).Nodup ∧ (∀ c ∈ stack0.rects, c.id < stack0.next_rect_id) ∧
    ((remove (updateN 3 (push stack0 none freeChild).1)
        { rect := { origin := { x := 9, y := 9 }, size := { width := 1, height := 1 } },
          layoutId := (push stack0 none freeChild).2.layoutId } true).2.rect = freeChild.rect ∧
      (remove (updateN 3 (push stack0 none freeChild).1)
        { rect := { origin := { x := 9, y := 9 }, size := { width := 1, height := 1 } },
          layoutId := (push stack0 none freeChild).2.layoutId } true).2.layoutId = none ∧
      stack0.next_rect_id ∉ childIds (remove (updateN 3 (push stack0 none freeChild).1)
        { rect := { origin := { x := 9, y := 9 }, size := { width := 1, height := 1 } },
          layoutId := (push stack0 none freeChild).2.layoutId } true).1.rects) :=
  ⟨by decide, by decide,
    remove_restores_push_time_rect stack0 none freeChild 3
      { origin := { x := 9, y := 9 }, size := { width := 1, height := 1 } }
      (by decide) (by decide)⟩

/-- Delivery on a child's queue never changes the key list. -/
theorem deliver_ids (w : VStackWidget) (i : Nat) (r : Rect) :
    childIds (deliver w i r).rects = childIds w.rects := by
  simp only [deliver, childIds, List.map_map]
  exact List.map_congr_left (fun c _ => by by_cases h : c.id = i <;> simp [h])

/-- C7: a managed checkbox that resizes itself emits its updated rectangle
on its end of the layout queue (`set_size` → `layout.notify`), and once
that report sits in the container-side slot of the child's queue, the
container's change-detection block of the next `update` raises the dirty
flag and replaces the stored child rectangle with the reported one. -/
theorem child_resize_reported_and_dirties_container
    (c : Checkbox) (s : Size) (w : VStackWidget) (d : ChildData) (r : Rect)
    (hb : c.layout.isSome = true)
    (hN : (childIds w.rects).Nodup) (hd : d ∈ w.rects) (hdp : d.dropPending = false) :
    (c.set_size s).2 = some { c.rect with size := s } ∧
    (c.set_size s).1.rect = { c.rect with size := s } ∧
    (detectChanges (deliver w d.id r)).dirty = true ∧
    findRecord (detectChanges (deliver w d.id r)).rects d.id =
      some { d with rect := r, inbound := none } := by
  have hmem' : ({ d with inbound := some r } : ChildData) ∈ (deliver w d.id r).rects := by
    simp only [deliver]
    exact List.mem_map.mpr ⟨d, hd, by simp⟩
  have hscan : scanChild { d with inbound := some r } =
      ({ d with rect := r, inbound := none }, false, true) := by
    simp [scanChild, hdp]
  have hN' : (childIds (deliver w d.id r).rects).Nodup := by
    rw [deliver_ids]; exact hN
  refine ⟨by simp [Checkbox.set_size, hb], by simp [Checkbox.set_size], ?_, ?_⟩
  · have hany : ((deliver w d.id r).rects.map scanChild).any (fun s => s.2.2) = true :=
      List.any_eq_true.mpr ⟨scanChild { d with inbound := some r },
        List.mem_map.mpr ⟨_, hmem', rfl⟩, by rw [hscan]⟩
    have hdef : (detectChanges (deliver w d.id r)).dirty =
        ((deliver w d.id r).dirty ||
          ((deliver w d.id r).rects.map scanChild).any (fun s => s.2.2)) := rfl
    rw [hdef, hany, Bool.or_true]
  · have hsurv := detect_preserves_record (deliver w d.id r) hN' hmem' hdp
    have hfind := find_record_of_mem _ (detect_nodup _ hN') hsurv
    rw [hscan] at hfind
    simpa using hfind

/-- Witness for C7 with the bound checkbox, the four-child fixture's second
record and a concrete reported rectangle. -/
theorem child_resize_reported_and_dirties_container_witness :
    cbxBound.layout.isSome = true ∧
    (childIds stack0.rects).Nodup ∧
    (sampleChild 1 3 4 40 20 Align.Middle ∈ stack0.rects) ∧
    ((cbxBound.set_size { width := 50, height := 25 }).2 =
        some { cbxBound.rect with size := { width := 50, height := 25 } } ∧
      (cbxBound.set_size { width := 50, height := 25 }).1.rect =
        { cbxBound.rect with size := { width := 50, height := 25 } } ∧
      (detectChanges (deliver stack0 (sampleChild 1 3 4 40 20 Align.Middle).id
          { origin := { x := 0, y := 0 }, size := { width := 50, height := 25 } })).dirty = true ∧
      findRecord (detectChanges (deliver stack0 (sampleChild 1 3 4 40 20 Align.Middle).id
          { origin := { x := 0, y := 0 }, size := { width := 50, height := 25 } })).rects
          (sampleChild 1 3 4 40 20 Align.Middle).id =
        some { sampleChild 1 3 4 40 20 Align.Middle with
          rect := { origin := { x := 0, y := 0 }, size := { width := 50, height := 25 } },
          inbound := none }) :=
  ⟨rfl, by decide, by decide,
    child_resize_reported_and_dirties_container cbxBound { width := 50, height := 25 }
      stack0 (sampleChild 1 3 4 40 20 Align.Middle)
      { origin := { x := 0, y := 0 }, size := { width := 50, height := 25 } }
      rfl (by decide) (by decide) rfl⟩

/-! ### The dirty layout pass: container size and per-child rectangles -/

/-- Characterisation of the `resize_to_fit` fold: the accumulated height is
the margin-inclusive height sum and the width is the running maximum. -/
theorem resize_fold_characterisation :
    ∀ (l : List ChildData) (acc : Size),
      l.foldl
        (fun acc c =>
          { width := if c.rect.size.width > acc.width then c.rect.size.width else acc.width,
            height := acc.height + c.rect.size.height + c.data.top_margin + c.data.bottom_margin })
        acc =
      { width := (l.map (fun c => c.rect.size.width)).foldl max acc.width,
        height := acc.height + totalHeight l } := by
  intro l
  induction l with
  | nil => intro acc; simp [totalHeight]
  | cons c rest ih =>
    intro acc
    simp only [List.foldl_cons, List.map_cons, totalHeight, List.map_cons, List.sum_cons]
    rw [ih]
    congr 1
    · congr 1
      rcases le_or_lt c.rect.size.width acc.width with hle | hlt
      · rw [if_neg (not_lt.mpr hle), max_eq_left hle]
      · rw [if_pos hlt, max_eq_right (le_of_lt hlt)]
    · simp [totalHeight]
      ring

/-- `resize_to_fit` sets the container size to (max child width,
margin-inclusive height sum) and leaves the origin alone. -/
theorem resize_to_fit_size (w : VStackWidget) :
    (resize_to_fit w).rect.size =
      { width := maxChildWidth w.rects, height := totalHeight w.rects } ∧
    (resize_to_fit w).rect.origin = w.rect.origin := by
  constructor
  · have hdef : (resize_to_fit w).rect.size =
        w.rects.foldl
          (fun acc c =>
            { width := if c.rect.size.width > acc.width then c.rect.size.width else acc.width,
              height := acc.height + c.rect.size.height + c.data.top_margin + c.data.bottom_margin })
          { width := 0, height := 0 } := rfl
    rw [hdef, resize_fold_characterisation]
    simp [maxChildWidth]
  · rfl

/-- When every record is clean, the change-detection block is the
identity. -/
theorem detect_id_of_clean (v : VStackWidget)
    (hclean : ∀ x ∈ v.rects, x.dropPending = false ∧ x.inbound = none) :
    detectChanges v = v := by
  have hscan : ∀ c ∈ v.rects, scanChild c = (c, false, false) := by
    intro c hc
    obtain ⟨h1, h2⟩ := hclean c hc
    simp [scanChild, h1, h2]
  have hmap : v.rects.map scanChild = v.rects.map (fun c => (c, false, false)) :=
    List.map_congr_left hscan
  have h1 : List.map (fun s : ChildData × Bool × Bool => s.1)
      (List.map (fun c : ChildData => (c, false, false)) v.rects) = v.rects := by
    rw [List.map_map]
    rw [show ((fun s : ChildData × Bool × Bool => s.1) ∘
      fun c : ChildData => (c, false, false)) = id from rfl, List.map_id]
  have h2 : List.filter (fun s : ChildData × Bool × Bool => s.2.1)
      (List.map (fun c : ChildData => (c, false, false)) v.rects) = [] := by
    rw [List.filter_map]
    rw [show ((fun s : ChildData × Bool × Bool => s.2.1) ∘
      fun c : ChildData => (c, false, false)) = fun _ => false from rfl]
    simp
  have h3 : (List.map (fun c : ChildData => (c, false, false)) v.rects).any
      (fun s => s.2.2) = false := by
    simp
  simp only [detectChanges, hmap, h1, h2, h3, List.map_nil, List.foldl_nil, Bool.or_false]

/-- Per-index characterisation of the layout walk's emissions: child `i`
receives a rectangle computed at offset `adv + offsetTo l i + top_margin
i`. -/
theorem layoutChildren_emission (a : Rect) :
    ∀ (l : List ChildData) (adv : ℚ) (i : Nat) (h : i < l.length),
      (layoutChildren a adv l).2[i]? =
        some ((l.get ⟨i, h⟩).id,
          computeRect a (adv + offsetTo l i + (l.get ⟨i, h⟩).data.top_margin)
            (l.get ⟨i, h⟩)) := by
  intro l
  induction l with
  | nil => intro adv i h; simp at h
  | cons c rest ih =>
    intro adv i h
    cases i with
    | zero =>
      have harg : adv + offsetTo (c :: rest) 0 + c.data.top_margin = adv + c.data.top_margin := by
        simp [offsetTo]
      simp only [layoutChildren, List.getElem?_cons_zero, List.get_eq_getElem,
        List.getElem_cons_zero, harg]
    | succ j =>
      have hj : j < rest.length := Nat.lt_of_succ_lt_succ h
      have harg : adv + offsetTo (c :: rest) (j + 1) + (rest.get ⟨j, hj⟩).data.top_margin =
          (adv + c.data.top_margin + c.rect.size.height + c.data.bottom_margin) +
            offsetTo rest j + (rest.get ⟨j, hj⟩).data.top_margin := by
        simp only [offsetTo, List.take_succ_cons, List.map_cons, List.sum_cons]
        ring
      simp only [layoutChildren, List.getElem?_cons_succ, List.get_eq_getElem,
        List.getElem_cons_succ]
      rw [ih _ j hj]
      simp only [List.get_eq_getElem] at harg ⊢
      rw [show (computeRect a (adv + c.data.top_margin) c).size.height =
        c.rect.size.height from rfl]
      rw [← harg]

/-- C2: a dirty `update` (with no inbound parent rectangle, drop or child
report pending, so the walked list is exactly the stored one) first sets
the container's size to (max child width, sum of child heights plus
per-child top and bottom margins), then emits one rectangle per child in
registration order, child `i` being assigned
`y = container.y + Σ over earlier children of (top + height + bottom) +
top_margin i`, with the child's height preserved. -/
theorem dirty_update_stacks_children (w : VStackWidget)
    (hin : w.layoutInbox = none)
    (hclean : ∀ x ∈ w.rects, x.dropPending = false ∧ x.inbound = none)
    (hdirty : w.dirty = true) :
    (update w).1.rect.origin = w.rect.origin ∧
    (update w).1.rect.size =
      { width := maxChildWidth w.rects, height := totalHeight w.rects } ∧
    (update w).2.length = w.rects.length ∧
    ∀ (i : Nat) (h : i < w.rects.length),
      ∃ r : Rect, (update w).2[i]? = some ((w.rects.get ⟨i, h⟩).id, r) ∧
        r.origin.y = w.rect.origin.y + offsetTo w.rects i +
          (w.rects.get ⟨i, h⟩).data.top_margin ∧
        r.size.height = (w.rects.get ⟨i, h⟩).rect.size.height := by
  have hrcv : receiveLayout w = w := by simp [receiveLayout, hin]
  have hdet : detectChanges w = w := detect_id_of_clean w hclean
  have hupd : update w = layoutPass w := by
    show layoutPass (detectChanges (receiveLayout w)) = layoutPass w
    rw [hrcv, hdet]
  have hlp1 : (update w).1 = { resize_to_fit w with
      rects := (layoutChildren (resize_to_fit w).rect (resize_to_fit w).rect.origin.y
        (resize_to_fit w).rects).1,
      dirty := false } := by
    rw [hupd]; simp [layoutPass, hdirty]
  have hlp2 : (update w).2 = (layoutChildren (resize_to_fit w).rect
      (resize_to_fit w).rect.origin.y (resize_to_fit w).rects).2 := by
    rw [hupd]; simp [layoutPass, hdirty]
  obtain ⟨hsize, horigin⟩ := resize_to_fit_size w
  refine ⟨?_, ?_, ?_, ?_⟩
  · rw [hlp1]; exact horigin
  · rw [hlp1]; exact hsize
  · rw [hlp2, layoutChildren_snd_length, resize_to_fit_rects]
  · intro i h
    have hi' : i < (resize_to_fit w).rects.length := h
    refine ⟨computeRect (resize_to_fit w).rect
      ((resize_to_fit w).rect.origin.y + offsetTo (resize_to_fit w).rects i +
        ((resize_to_fit w).rects.get ⟨i, hi'⟩).data.top_margin)
      ((resize_to_fit w).rects.get ⟨i, hi'⟩), ?_, rfl, rfl⟩
    rw [hlp2, layoutChildren_emission _ _ _ i hi']
    rfl

/-- C3: in the dirty layout pass, for the container width `W` the pass just
computed (`W = maxChildWidth`, the container's width after `update`) and a
child of width `cw`, the emitted rectangle's horizontal position relative
to the container's left edge is `0` for `Begin`, `(W − cw) / 2` for
`Middle`, `W − cw` for `End`, and for `Stretch` the emitted width is forced
to `W` at offset `0`; the child's own width is preserved in the other three
cases. -/
theorem alignment_offsets (w : VStackWidget)
    (hin : w.layoutInbox = none)
    (hclean : ∀ x ∈ w.rects, x.dropPending = false ∧ x.inbound = none)
    (hdirty : w.dirty = true) :
    ∀ (i : Nat) (h : i < w.rects.length),
      ∃ r : Rect, (update w).2[i]? = some ((w.rects.get ⟨i, h⟩).id, r) ∧
        ((w.rects.get ⟨i, h⟩).data.alignment = Align.Begin →
          r.origin.x = w.rect.origin.x ∧
          r.size.width = (w.rects.get ⟨i, h⟩).rect.size.width) ∧
        ((w.rects.get ⟨i, h⟩).data.alignment = Align.Middle →
          r.origin.x = w.rect.origin.x +
            ((update w).1.rect.size.width - (w.rects.get ⟨i, h⟩).rect.size.width) / 2 ∧
          r.size.width = (w.rects.get ⟨i, h⟩).rect.size.width) ∧
        ((w.rects.get ⟨i, h⟩).data.alignment = Align.End →
          r.origin.x = w.rect.origin.x + (update w).1.rect.size.width -
            (w.rects.get ⟨i, h⟩).rect.size.width ∧
          r.size.width = (w.rects.get ⟨i, h⟩).rect.size.width) ∧
        ((w.rects.get ⟨i, h⟩).data.alignment = Align.Stretch →
          r.size.width = (update w).1.rect.size.width ∧
          r.origin.x = w.rect.origin.x) := by
  have hrcv : receiveLayout w = w := by simp [receiveLayout, hin]
  have hdet : detectChanges w = w := detect_id_of_clean w hclean
  have hupd : update w = layoutPass w := by
    show layoutPass (detectChanges (receiveLayout w)) = layoutPass w
    rw [hrcv, hdet]
  have hlp1 : (update w).1 = { resize_to_fit w with
      rects := (layoutChildren (resize_to_fit w).rect (resize_to_fit w).rect.origin.y
        (resize_to_fit w).rects).1,
      dirty := false } := by
    rw [hupd]; simp [layoutPass, hdirty]
  have hlp2 : (update w).2 = (layoutChildren (resize_to_fit w).rect
      (resize_to_fit w).rect.origin.y (resize_to_fit w).rects).2 := by
    rw [hupd]; simp [layoutPass, hdirty]
  have hW : (update w).1.rect.size.width = (resize_to_fit w).rect.size.width := by
    rw [hlp1]
  intro i h
  have hi' : i < (resize_to_fit w).rects.length := h
  refine ⟨computeRect (resize_to_fit w).rect
    ((resize_to_fit w).rect.origin.y + offsetTo (resize_to_fit w).rects i +
      ((resize_to_fit w).rects.get ⟨i, hi'⟩).data.top_margin)
    ((resize_to_fit w).rects.get ⟨i, hi'⟩), ?_, ?_, ?_, ?_, ?_⟩
  · rw [hlp2, layoutChildren_emission _ _ _ i hi']
    rfl
  · intro halign
    constructor
    · show (match (w.rects.get ⟨i, h⟩).data.alignment with
        | Align.Begin => (resize_to_fit w).rect.origin.x
        | Align.Middle => (resize_to_fit w).rect.origin.x +
            ((resize_to_fit w).rect.size.width -
              (w.rects.get ⟨i, h⟩).rect.size.width) / 2
        | Align.End => (resize_to_fit w).rect.origin.x +
            (resize_to_fit w).rect.size.width - (w.rects.get ⟨i, h⟩).rect.size.width
        | Align.Stretch => (resize_to_fit w).rect.origin.x) = w.rect.origin.x
      rw [halign]
      rfl
    · show (match (w.rects.get ⟨i, h⟩).data.alignment with
        | Align.Stretch => (resize_to_fit w).rect.size.width
        | _ => (w.rects.get ⟨i, h⟩).rect.size.width) =
        (w.rects.get ⟨i, h⟩).rect.size.width
      rw [halign]
  · intro halign
    constructor
    · show (match (w.rects.get ⟨i, h⟩).data.alignment with
        | Align.Begin => (resize_to_fit w).rect.origin.x
        | Align.Middle => (resize_to_fit w).rect.origin.x +
            ((resize_to_fit w).rect.size.width -
              (w.rects.get ⟨i, h⟩).rect.size.width) / 2
        | Align.End => (resize_to_fit w).rect.origin.x +
            (resize_to_fit w).rect.size.width - (w.rects.get ⟨i, h⟩).rect.size.width
        | Align.Stretch => (resize_to_fit w).rect.origin.x) =
        w.rect.origin.x +
          ((update w).1.rect.size.width - (w.rects.get ⟨i, h⟩).rect.size.width) / 2
      rw [halign, hW]
      rfl
    · show (match (w.rects.get ⟨i, h⟩).data.alignment with
        | Align.Stretch => (resize_to_fit w).rect.size.width
        | _ => (w.rects.get ⟨i, h⟩).rect.size.width) =
        (w.rects.get ⟨i, h⟩).rect.size.width
      rw [halign]
  · intro halign
    constructor
    · show (match (w.rects.get ⟨i, h⟩).data.alignment with
        | Align.Begin => (resize_to_fit w).rect.origin.x
        | Align.Middle => (resize_to_fit w).rect.origin.x +
            ((resize_to_fit w).rect.size.width -
              (w.rects.get ⟨i, h⟩).rect.size.width) / 2
        | Align.End => (resize_to_fit w).rect.origin.x +
            (resize_to_fit w).rect.size.width - (w.rects.get ⟨i, h⟩).rect.size.width
        | Align.Stretch => (resize_to_fit w).rect.origin.x) =
        w.rect.origin.x + (update w).1.rect.size.width -
          (w.rects.get ⟨i, h⟩).rect.size.width
      rw [halign, hW]
      rfl
    · show (match (w.rects.get ⟨i, h⟩).data.alignment with
        | Align.Stretch => (resize_to_fit w).rect.size.width
        | _ => (w.rects.get ⟨i, h⟩).rect.size.width) =
        (w.rects.get ⟨i, h⟩).rect.size.width
      rw [halign]
  · intro halign
    constructor
    · show (match (w.rects.get ⟨i, h⟩).data.alignment with
        | Align.Stretch => (resize_to_fit w).rect.size.width
        | _ => (w.rects.get ⟨i, h⟩).rect.size.width) =
        (update w).1.rect.size.width
      rw [halign, hW]
    · show (match (w.rects.get ⟨i, h⟩).data.alignment with
        | Align.Begin => (resize_to_fit w).rect.origin.x
        | Align.Middle => (resize_to_fit w).rect.origin.x +
            ((resize_to_fit w).rect.size.width -
              (w.rects.get ⟨i, h⟩).rect.size.width) / 2
        | Align.End => (resize_to_fit w).rect.origin.x +
            (resize_to_fit w).rect.size.width - (w.rects.get ⟨i, h⟩).rect.size.width
        | Align.Stretch => (resize_to_fit w).rect.origin.x) = w.rect.origin.x
      rw [halign]
      rfl

/-- Witness for C2 on the dirty four-child fixture. -/
theorem dirty_update_stacks_children_witness :
    stack0.layoutInbox = none ∧
    (∀ x ∈ stack0.rects, x.dropPending = false ∧ x.inbound = none) ∧
    stack0.dirty = true ∧
    ((update stack0).1.rect.origin = stack0.rect.origin ∧
      (update stack0).1.rect.size =
        { width := maxChildWidth stack0.rects, height := totalHeight stack0.rects } ∧
      (update stack0).2.length = stack0.rects.length ∧
      ∀ (i : Nat) (h : i < stack0.rects.length),
        ∃ r : Rect, (update stack0).2[i]? = some ((stack0.rects.get ⟨i, h⟩).id, r) ∧
          r.origin.y = stack0.rect.origin.y + offsetTo stack0.rects i +
            (stack0.rects.get ⟨i, h⟩).data.top_margin ∧
          r.size.height = (stack0.rects.get ⟨i, h⟩).rect.size.height) :=
  ⟨rfl, by decide, rfl,
    dirty_update_stacks_children stack0 rfl (by decide) rfl⟩

/-- Witness for C3 on the dirty four-child fixture. -/
theorem alignment_offsets_witness :
    stack0.layoutInbox = none ∧
    (∀ x ∈ stack0.rects, x.dropPending = false ∧ x.inbound = none) ∧
    stack0.dirty = true ∧
    (∀ (i : Nat) (h : i < stack0.rects.length),
      ∃ r : Rect, (update stack0).2[i]? = some ((stack0.rects.get ⟨i, h⟩).id, r) ∧
        ((stack0.rects.get ⟨i, h⟩).data.alignment = Align.Begin →
          r.origin.x = stack0.rect.origin.x ∧
          r.size.width = (stack0.rects.get ⟨i, h⟩).rect.size.width) ∧
        ((stack0.rects.get ⟨i, h⟩).data.alignment = Align.Middle →
          r.origin.x = stack0.rect.origin.x +
            ((update stack0).1.rect.size.width -
              (stack0.rects.get ⟨i, h⟩).rect.size.width) / 2 ∧
          r.size.width = (stack0.rects.get ⟨i, h⟩).rect.size.width) ∧
        ((stack0.rects.get ⟨i, h⟩).data.alignment = Align.End →
          r.origin.x = stack0.rect.origin.x + (update stack0).1.rect.size.width -
            (stack0.rects.get ⟨i, h⟩).rect.size.width ∧
          r.size.width = (stack0.rects.get ⟨i, h⟩).rect.size.width) ∧
        ((stack0.rects.get ⟨i, h⟩).data.alignment = Align.Stretch →
          r.size.width = (update stack0).1.rect.size.width ∧
          r.origin.x = stack0.rect.origin.x)) :=
  ⟨rfl, by decide, rfl,
    alignment_offsets stack0 rfl (by decide) rfl⟩

end Reui
